import Mathlib

/-!
Verification of the PXF foreign-data-wrapper option handling
(contrib/pxf_fdw/pxf_option.c) against its natural-language specification.

The C file is shallowly embedded below:
  * option lists become `List DefElem`,
  * the catalog Oids become the enumerated type `Oid`,
  * `ereport(ERROR, ...)` becomes an `Except PxfError` / `Option PxfError` result
    (each `PxfError` constructor corresponds to one errcode used by the C file),
  * the external collaborators that are not part of this repository's source
    (`ProcessCopyOptions`, `defGetBoolean`) are passed in as parameters, and the
    constants that live in the missing header `pxf_fdw.h` are modelled from the
    spec's words (see the comments on those constants).
All other definitions are translated directly from the C source.
-/

/-- Catalog relation identifiers used by the option tables
(the five Oid constants the C file compares against). -/
inductive Oid where
  | ForeignDataWrapperRelationId
  | ForeignServerRelationId
  | UserMappingRelationId
  | ForeignTableRelationId
  | AttributeRelationId
  deriving DecidableEq, Repr, Fintype

/-- A catalog option: `DefElem` with its `defname` and the string returned by
`defGetString`. -/
structure DefElem where
  defname : String
  value : String
  deriving DecidableEq, Repr

/-- Error kinds raised by pxf_option.c; each constructor corresponds to one
`ereport`/`elog` call site (identified by its errcode). -/
inductive PxfError where
  /-- ERRCODE_FDW_INVALID_OPTION_NAME from `ValidateOption`: the option can
  only be defined at the stored catalog level. -/
  | WrongCatalogLevel (option : String) (legalLevel : Oid)
  /-- ERRCODE_FDW_INVALID_ATTRIBUTE_VALUE: bad `wire_format` value. -/
  | InvalidAttributeValue
  /-- ERRCODE_FDW_INVALID_STRING_FORMAT: bad `reject_limit` /
  `reject_limit_type` value or range. -/
  | InvalidStringFormat
  /-- ERRCODE_FDW_DYNAMIC_PARAMETER_VALUE_NEEDED: missing required option. -/
  | DynamicParameterValueNeeded (option : String)
  /-- ERRCODE_FDW_INVALID_OPTION_NAME from `ValidateCopyOptions`: unknown copy
  option; the payload is the hint (`some` = the "Valid options in this context
  are: ..." list, `none` = "There are no valid options in this context."). -/
  | InvalidOptionName (option : String) (hint : Option String)
  /-- ERRCODE_SYNTAX_ERROR: conflicting or redundant `force_not_null` /
  `force_null`. -/
  | ConflictingOption (option : String)
  /-- Error raised by the external `defGetBoolean` on an illegal boolean. -/
  | InvalidBoolean (option : String)
  /-- `elog(ERROR, "invalid port number: %s")` in `PxfGetOptions`. -/
  | InvalidPort (value : String)
  deriving DecidableEq, Repr

/-! ### String constants from pxf_option.c -/

def FDW_OPTION_FORMAT_TEXT : String := "text"
def FDW_OPTION_FORMAT_CSV : String := "csv"
def FDW_OPTION_FORMAT_RC : String := "rc"
def FDW_OPTION_REJECT_LIMIT_ROWS : String := "rows"
def FDW_OPTION_REJECT_LIMIT_PERCENT : String := "percent"
def FDW_OPTION_PROTOCOL : String := "protocol"
def FDW_OPTION_RESOURCE : String := "resource"
def FDW_OPTION_FORMAT : String := "format"
def FDW_OPTION_REJECT_LIMIT_TYPE : String := "reject_limit_type"
def FDW_OPTION_REJECT_LIMIT : String := "reject_limit"
def FDW_OPTION_WIRE_FORMAT : String := "wire_format"
def FDW_OPTION_PXF_PORT : String := "pxf_port"
def FDW_OPTION_PXF_HOST : String := "pxf_host"
def FDW_OPTION_PXF_PROTOCOL : String := "pxf_protocol"

/-- Modelled from the spec: the text-wire encoding token. Declared in
`pxf_fdw.h`, which is not part of the given source tree; the spec only calls
it the "text-wire token", and no claim depends on its literal spelling. -/
def TextFormatName : String := "TEXT"

/-- Modelled from the spec: the binary table-writable encoding token, the
second `wire_format` token from `pxf_fdw.h` (not in the given source tree). -/
def GpdbWritableFormatName : String := "GPDBWritable"

/-- Modelled from the spec: fixed built-in default host from `pxf_fdw.h`
(not in the given source tree); no claim depends on its literal value. -/
def PXF_FDW_DEFAULT_HOST : String := "localhost"

/-- Modelled from the spec: fixed built-in default port from `pxf_fdw.h`
(not in the given source tree); no claim depends on its literal value beyond
it being a valid port. -/
def PXF_FDW_DEFAULT_PORT : Int := 5888

/-- Modelled from the spec: fixed built-in default sub-protocol from
`pxf_fdw.h` (not in the given source tree). -/
def PXF_FDW_DEFAULT_PROTOCOL : String := "http"

/-! ### C library string helpers (strtol/atoi, pg_strcasecmp, strcasestr) -/

/-- C `isspace` over the default locale (the six standard space characters). -/
def cIsSpace (c : Char) : Bool :=
  c == ' ' || c == '\t' || c == '\n' || c == '\r' ||
  c == Char.ofNat 11 || c == Char.ofNat 12

def cIsDigit (c : Char) : Bool := '0' ≤ c && c ≤ '9'

def dropSpacesL : List Char → List Char
  | [] => []
  | c :: rest => if cIsSpace c then dropSpacesL rest else c :: rest

/-- Accumulate the leading run of decimal digits. -/
def digitsAcc : List Char → Nat → Nat
  | [], acc => acc
  | c :: rest, acc =>
      if cIsDigit c then digitsAcc rest (10 * acc + (c.toNat - 48)) else acc

/-- Value of a leading digit run together with the flag "at least one digit
was consumed" (C `strtol`: `endptr != nptr`). -/
def strtolDigits (s : List Char) : Int × Bool :=
  match s with
  | c :: _ => if cIsDigit c then ((digitsAcc s 0 : Int), true) else (0, false)
  | [] => (0, false)

/-- Clamping of an out-of-range result to the `long` range, as C `strtol`
does on overflow (returning `LONG_MAX`/`LONG_MIN`; 64-bit `long` on the LP64
target this code builds for). -/
def clampLong (v : Int) : Int :=
  if 9223372036854775807 < v then 9223372036854775807
  else if v < -9223372036854775808 then -9223372036854775808
  else v

/-- C `strtol(s, &endptr, 10)`: leading-integer value, clamped to the `long`
range on overflow. The boolean is `endptr != s`, i.e. a conversion was
performed. -/
def strtol10 (s : List Char) : Int × Bool :=
  match dropSpacesL s with
  | '-' :: r => let p := strtolDigits r; (clampLong (-p.1), p.2)
  | '+' :: r => let p := strtolDigits r; (clampLong p.1, p.2)
  | s1 => let p := strtolDigits s1; (clampLong p.1, p.2)

/-- The C `(int)` narrowing of a `long` value: two's-complement wrap to 32
bits (the gcc behaviour on the targets this code builds for). -/
def wrapInt32 (v : Int) : Int :=
  (v + 2147483648) % 4294967296 - 2147483648

/-- C `atoi`, i.e. `(int) strtol(s, NULL, 10)`: the `long` result narrowed to
a 32-bit `int`. -/
def atoiInt (s : String) : Int := wrapInt32 (strtol10 s.data).1

/-- Truth of `pg_strcasecmp(a, b) == 0`: ASCII-case-insensitive equality
(`pg_strcasecmp` lowercases byte-wise exactly like `Char.toLower` on ASCII). -/
def pg_strcasecmp_eq (a b : String) : Bool :=
  a.data.map Char.toLower == b.data.map Char.toLower

def hasPrefLC : List Char → List Char → Bool
  | [], _ => true
  | _ :: _, [] => false
  | a :: as, b :: bs => a == b && hasPrefLC as bs

def containsSubLC (needle : List Char) : List Char → Bool
  | [] => hasPrefLC needle []
  | c :: t => if hasPrefLC needle (c :: t) then true else containsSubLC needle t

/-- Truth of `strcasestr(hay, needle) != NULL`: case-insensitive substring
search. -/
def strcasestrFound (hay needle : String) : Bool :=
  containsSubLC (needle.data.map Char.toLower) (hay.data.map Char.toLower)

/-! ### Option catalogs (the two static arrays, sans sentinels) -/

/-- `valid_options[]`: each connector option with the single catalog relation
at which it may appear. -/
def valid_options : List (String × Oid) :=
  [(FDW_OPTION_PROTOCOL, Oid.ForeignDataWrapperRelationId),
   (FDW_OPTION_RESOURCE, Oid.ForeignTableRelationId),
   (FDW_OPTION_FORMAT, Oid.ForeignTableRelationId),
   (FDW_OPTION_WIRE_FORMAT, Oid.ForeignTableRelationId),
   (FDW_OPTION_REJECT_LIMIT, Oid.ForeignTableRelationId),
   (FDW_OPTION_REJECT_LIMIT_TYPE, Oid.ForeignTableRelationId)]

/-- `valid_copy_options[]` in array order. -/
def valid_copy_options : List (String × Oid) :=
  [("format", Oid.ForeignTableRelationId),
   ("header", Oid.ForeignTableRelationId),
   ("delimiter", Oid.ForeignTableRelationId),
   ("quote", Oid.ForeignTableRelationId),
   ("escape", Oid.ForeignTableRelationId),
   ("null", Oid.ForeignTableRelationId),
   ("encoding", Oid.ForeignTableRelationId),
   ("newline", Oid.ForeignTableRelationId),
   ("fill_missing_fields", Oid.ForeignTableRelationId),
   ("force_not_null", Oid.AttributeRelationId),
   ("force_null", Oid.AttributeRelationId)]

/-- `ValidateOption`: scan `valid_options`; the first entry whose name matches
at a different catalog level raises the error (the C loop `ereport`s, which
aborts, so only the first match matters). `none` = no error. -/
def ValidateOption (option : String) (catalog : Oid) : Option PxfError :=
  valid_options.findSome? fun e =>
    if e.1 == option && !(catalog == e.2) then
      some (PxfError.WrongCatalogLevel option e.2)
    else none

/-- `IsValidCopyOption`: linear scan requiring both name and context match. -/
def IsValidCopyOption (option : String) (context : Oid) : Bool :=
  valid_copy_options.any fun e => context == e.2 && e.1 == option

/-- `IsCopyOption`: linear scan on name only. -/
def IsCopyOption (option : String) : Bool :=
  valid_copy_options.any fun e => e.1 == option

/-- The hint string built by `ValidateCopyOptions` for an invalid option name:
iterate `valid_copy_options` in array order, appending each name whose context
matches, separated by ", " once the buffer is non-empty. -/
def copyHintBuf (catalog : Oid) : String :=
  valid_copy_options.foldl
    (fun buf e =>
      if catalog == e.2 then
        (if buf.length > 0 then buf ++ ", " ++ e.1 else buf ++ e.1)
      else buf) ""

/-- The errhint choice: `buf.len > 0 ? "Valid options ...: buf" : "There are
no valid options in this context."`, encoded as `some buf` / `none`. -/
def copyHint (catalog : Oid) : Option String :=
  let buf := copyHintBuf catalog
  if buf.length > 0 then some buf else none

/-! ### ValidateCopyOptions -/

/-- The two collaborators of this file that live outside the given source
tree: the core COPY validation (`ProcessCopyOptions`) and the boolean parser
(`defGetBoolean`, here just its success predicate on the option value). -/
structure CopyExternals where
  processCopyOptions : List DefElem → Option PxfError
  defGetBooleanOk : String → Bool

/-- The loop of `ValidateCopyOptions`: checks each option is valid for the
catalog, enforces single occurrence of `force_not_null` / `force_null`
(discarding them), and accumulates the rest. -/
def copyLoop (ext : CopyExternals) (catalog : Oid) :
    List DefElem → Option DefElem → Option DefElem → List DefElem →
    Except PxfError (List DefElem)
  | [], _, _, acc => .ok acc
  | d :: rest, fnn, fn, acc =>
    if IsValidCopyOption d.defname catalog = false then
      .error (.InvalidOptionName d.defname (copyHint catalog))
    else if d.defname == "force_not_null" then
      if fnn.isSome then .error (.ConflictingOption "force_not_null")
      else if ext.defGetBooleanOk d.value then copyLoop ext catalog rest (some d) fn acc
      else .error (.InvalidBoolean d.defname)
    else if d.defname == "force_null" then
      if fn.isSome then .error (.ConflictingOption "force_null")
      else if ext.defGetBooleanOk d.value then copyLoop ext catalog rest fnn (some d) acc
      else .error (.InvalidBoolean d.defname)
    else copyLoop ext catalog rest fnn fn (acc ++ [d])

/-- `ValidateCopyOptions`: run the loop, then hand the surviving options to
the core COPY validation. -/
def ValidateCopyOptions (ext : CopyExternals) (options_list : List DefElem)
    (catalog : Oid) : Option PxfError :=
  match copyLoop ext catalog options_list none none [] with
  | .error e => some e
  | .ok copy => ext.processCopyOptions copy

/-- A benign instantiation of the external collaborators: the delegate
accepts everything and every value is a legal boolean. -/
def extTrivial : CopyExternals :=
  { processCopyOptions := fun _ => none, defGetBooleanOk := fun _ => true }

/-! ### pxf_fdw_validator -/

/-- Loop state of `pxf_fdw_validator`: the local variables `protocol`,
`resource`, `reject_limit_type`, `reject_limit`, `copy_options`. -/
structure VState where
  protocol : Option String
  resource : Option String
  reject_limit_type : String
  reject_limit : Int
  copy_options : List DefElem
  deriving DecidableEq, Repr

/-- Initial values of the validator's locals. -/
def vInit : VState :=
  { protocol := none, resource := none,
    reject_limit_type := FDW_OPTION_REJECT_LIMIT_ROWS,
    reject_limit := -1, copy_options := [] }

/-- One iteration of the `foreach` in `pxf_fdw_validator`. -/
def validatorStep (catalog : Oid) (st : VState) (d : DefElem) :
    Except PxfError VState :=
  match ValidateOption d.defname catalog with
  | some e => .error e
  | none =>
    if d.defname == FDW_OPTION_PROTOCOL then
      .ok { st with protocol := some d.value }
    else if d.defname == FDW_OPTION_RESOURCE then
      .ok { st with resource := some d.value }
    else if d.defname == FDW_OPTION_WIRE_FORMAT then
      if !(d.value == TextFormatName) && !(d.value == GpdbWritableFormatName) then
        .error .InvalidAttributeValue
      else .ok st
    else if d.defname == FDW_OPTION_FORMAT then
      if pg_strcasecmp_eq d.value FDW_OPTION_FORMAT_TEXT ||
         pg_strcasecmp_eq d.value FDW_OPTION_FORMAT_CSV then
        .ok { st with copy_options := st.copy_options ++ [d] }
      else .ok st
    else if d.defname == FDW_OPTION_REJECT_LIMIT then
      if (strtol10 d.value.data).2 = false ∨
         wrapInt32 (strtol10 d.value.data).1 < 1 then
        .error .InvalidStringFormat
      else .ok { st with reject_limit := wrapInt32 (strtol10 d.value.data).1 }
    else if d.defname == FDW_OPTION_REJECT_LIMIT_TYPE then
      if !(pg_strcasecmp_eq d.value FDW_OPTION_REJECT_LIMIT_ROWS) &&
         !(pg_strcasecmp_eq d.value FDW_OPTION_REJECT_LIMIT_PERCENT) then
        .error .InvalidStringFormat
      else .ok { st with reject_limit_type := d.value }
    else if IsCopyOption d.defname then
      .ok { st with copy_options := st.copy_options ++ [d] }
    else .ok st

/-- The `foreach` loop of `pxf_fdw_validator`. -/
def validatorLoop (catalog : Oid) : VState → List DefElem → Except PxfError VState
  | st, [] => .ok st
  | st, d :: rest =>
    match validatorStep catalog st d with
    | .error e => .error e
    | .ok st1 => validatorLoop catalog st1 rest

/-- `pxf_fdw_validator`: the loop, the two required-option checks, the
reject-limit range check, then `ValidateCopyOptions`. `none` = success. -/
def pxf_fdw_validator (ext : CopyExternals) (options_list : List DefElem)
    (catalog : Oid) : Option PxfError :=
  match validatorLoop catalog vInit options_list with
  | .error e => some e
  | .ok st =>
    if catalog == Oid.ForeignDataWrapperRelationId &&
       (st.protocol == none || st.protocol == some "") then
      some (.DynamicParameterValueNeeded FDW_OPTION_PROTOCOL)
    else if catalog == Oid.ForeignTableRelationId &&
       (st.resource == none || st.resource == some "") then
      some (.DynamicParameterValueNeeded FDW_OPTION_RESOURCE)
    else if !(st.reject_limit == -1) then
      if pg_strcasecmp_eq st.reject_limit_type FDW_OPTION_REJECT_LIMIT_ROWS then
        if st.reject_limit < 2 then some .InvalidStringFormat
        else ValidateCopyOptions ext st.copy_options catalog
      else
        if st.reject_limit < 1 ∨ 100 < st.reject_limit then some .InvalidStringFormat
        else ValidateCopyOptions ext st.copy_options catalog
    else ValidateCopyOptions ext st.copy_options catalog

/-! ### GetWireFormatName and PxfGetOptions -/

/-- `GetWireFormatName`, translated with C truthiness made explicit: the
source tests `pg_strcasecmp(format, csv)` and `pg_strcasecmp(format, rc)`
directly (without `== 0`), and a nonzero comparison result is truthy, so
those two disjuncts hold exactly when `format` differs from "csv" (resp.
"rc") case-insensitively. -/
def GetWireFormatName (format : Option String) : String :=
  match format with
  | some f =>
    if strcasestrFound f FDW_OPTION_FORMAT_TEXT ||
       !(pg_strcasecmp_eq f FDW_OPTION_FORMAT_CSV) ||
       !(pg_strcasecmp_eq f FDW_OPTION_FORMAT_RC) then
      TextFormatName
    else GpdbWritableFormatName
  | none => GpdbWritableFormatName

/-- Loop state of `PxfGetOptions`: the fields of the `PxfOptions` struct that
the loop writes (after `memset 0` plus the two explicit initializations),
together with the three local lists. -/
structure RState where
  protocol : Option String
  resource : Option String
  format : Option String
  wire_format : Option String
  pxf_host : Option String
  pxf_protocol : Option String
  reject_limit : Int
  is_reject_limit_rows : Bool
  pxf_port : Int
  copy_options : List DefElem
  other_options : List DefElem
  other_option_names : List String
  deriving DecidableEq, Repr

/-- `palloc` + `memset(opt, 0, ...)` + the two explicit initializations
(`reject_limit = -1`, `is_reject_limit_rows = true`); NULL pointers are
`none`, the zeroed int port is `0`. -/
def initRState : RState :=
  { protocol := none, resource := none, format := none, wire_format := none,
    pxf_host := none, pxf_protocol := none,
    reject_limit := -1, is_reject_limit_rows := true, pxf_port := 0,
    copy_options := [], other_options := [], other_option_names := [] }

/-- One iteration of the `foreach` in `PxfGetOptions` (the strcmp dispatch
chain, in source order). -/
def resolveStep (st : RState) (d : DefElem) : Except PxfError RState :=
  if d.defname == FDW_OPTION_PXF_HOST then
    .ok { st with pxf_host := some d.value }
  else if d.defname == FDW_OPTION_PXF_PORT then
    let port := atoiInt d.value
    if port ≤ 0 ∨ 65535 ≤ port then .error (.InvalidPort d.value)
    else .ok { st with pxf_port := port }
  else if d.defname == FDW_OPTION_PXF_PROTOCOL then
    .ok { st with pxf_protocol := some d.value }
  else if d.defname == FDW_OPTION_PROTOCOL then
    .ok { st with protocol := some d.value }
  else if d.defname == FDW_OPTION_RESOURCE then
    .ok { st with resource := some d.value }
  else if d.defname == FDW_OPTION_REJECT_LIMIT then
    .ok { st with reject_limit := atoiInt d.value }
  else if d.defname == FDW_OPTION_REJECT_LIMIT_TYPE then
    .ok { st with is_reject_limit_rows :=
            pg_strcasecmp_eq FDW_OPTION_REJECT_LIMIT_ROWS d.value }
  else if d.defname == FDW_OPTION_FORMAT then
    let co :=
      if pg_strcasecmp_eq d.value FDW_OPTION_FORMAT_TEXT ||
         pg_strcasecmp_eq d.value FDW_OPTION_FORMAT_CSV then
        st.copy_options ++ [d]
      else st.copy_options
    .ok { st with format := some d.value, copy_options := co }
  else if d.defname == FDW_OPTION_WIRE_FORMAT then
    .ok { st with wire_format := some d.value }
  else if IsCopyOption d.defname then
    .ok { st with copy_options := st.copy_options ++ [d] }
  else if st.other_option_names.contains d.defname then .ok st
  else
    .ok { st with
          other_options := st.other_options ++ [d],
          other_option_names := st.other_option_names ++ [d.defname] }

/-- The `foreach` loop of `PxfGetOptions` over the concatenated options. -/
def resolveLoop : RState → List DefElem → Except PxfError RState
  | st, [] => .ok st
  | st, d :: rest =>
    match resolveStep st d with
    | .error e => .error e
    | .ok st1 => resolveLoop st1 rest

/-- The `PxfOptions` struct as returned to the caller (fields assigned after
the loop and the defaulted fields). -/
structure PxfOptions where
  protocol : Option String
  resource : Option String
  format : Option String
  wire_format : Option String
  reject_limit : Int
  is_reject_limit_rows : Bool
  pxf_host : Option String
  pxf_protocol : Option String
  pxf_port : Int
  copy_options : List DefElem
  options : List DefElem
  profile : Option String
  server : String
  exec_location : Char
  deriving DecidableEq, Repr

/-- Rendering of a possibly-NULL `char *` under glibc `%s` (`psprintf` prints
"(null)" for a NULL argument). -/
def cstr (o : Option String) : String :=
  match o with
  | some s => s
  | none => "(null)"

/-- The tail of `PxfGetOptions` after the loop: list/caller-field assignment,
profile derivation, and defaulting of host/port/sub-protocol/wire_format. -/
def mkFinal (st : RState) (servername : String) (exec_location : Char) :
    PxfOptions :=
  { protocol := st.protocol,
    resource := st.resource,
    format := st.format,
    wire_format :=
      (match st.wire_format with
       | some v => some v
       | none => some (GetWireFormatName st.format)),
    reject_limit := st.reject_limit,
    is_reject_limit_rows := st.is_reject_limit_rows,
    pxf_host :=
      (match st.pxf_host with
       | some v => some v
       | none => some PXF_FDW_DEFAULT_HOST),
    pxf_protocol :=
      (match st.pxf_protocol with
       | some v => some v
       | none => some PXF_FDW_DEFAULT_PROTOCOL),
    pxf_port := if st.pxf_port == 0 then PXF_FDW_DEFAULT_PORT else st.pxf_port,
    copy_options := st.copy_options,
    options := st.other_options,
    profile :=
      (match st.format with
       | some f => some (cstr st.protocol ++ ":" ++ f)
       | none => st.protocol),
    server := servername,
    exec_location := exec_location }

/-- `PxfGetOptions` as a function of the four catalog option lists (fetched
externally in the C code) plus the server name and wrapper exec location.
The four lists are concatenated in the source's order: table, user mapping,
server, wrapper. -/
def PxfGetOptions (table user server wrapper : List DefElem)
    (servername : String) (exec_location : Char) :
    Except PxfError PxfOptions :=
  let options := table ++ user ++ server ++ wrapper
  match resolveLoop initRState options with
  | .error e => .error e
  | .ok st => .ok (mkFinal st servername exec_location)

instance exceptDecEq {ε α : Type} [DecidableEq ε] [DecidableEq α] :
    DecidableEq (Except ε α) := fun a b =>
  match a, b with
  | .error e1, .error e2 =>
    if h : e1 = e2 then isTrue (by rw [h])
    else isFalse (by intro hc; cases hc; exact h rfl)
  | .ok v1, .ok v2 =>
    if h : v1 = v2 then isTrue (by rw [h])
    else isFalse (by intro hc; cases hc; exact h rfl)
  | .error _, .ok _ => isFalse (by intro hc; cases hc)
  | .ok _, .error _ => isFalse (by intro hc; cases hc)

/-- A default `PxfOptions` used only to extract values from `Except` results
in concrete witnesses. -/
def defaultPxfOptions : PxfOptions :=
  { protocol := none, resource := none, format := none, wire_format := none,
    reject_limit := -1, is_reject_limit_rows := true,
    pxf_host := none, pxf_protocol := none, pxf_port := 0,
    copy_options := [], options := [], profile := none,
    server := "", exec_location := 'a' }

/-! ### Specification helpers (used to state the properties) -/

/-- The names the `PxfGetOptions` loop dispatches on before the copy-option
test (the nine recognized named fields). -/
def specialName (x : String) : Bool :=
  x == FDW_OPTION_PXF_HOST || x == FDW_OPTION_PXF_PORT ||
  x == FDW_OPTION_PXF_PROTOCOL || x == FDW_OPTION_PROTOCOL ||
  x == FDW_OPTION_RESOURCE || x == FDW_OPTION_REJECT_LIMIT ||
  x == FDW_OPTION_REJECT_LIMIT_TYPE || x == FDW_OPTION_FORMAT ||
  x == FDW_OPTION_WIRE_FORMAT

/-- Whether the `PxfGetOptions` loop appends this option to `copy_options`:
a `format` option whose value matches text/csv case-insensitively, or any
non-named-field option whose name is a copy option. -/
def keptAsCopy (d : DefElem) : Bool :=
  if d.defname == FDW_OPTION_FORMAT then
    pg_strcasecmp_eq d.value FDW_OPTION_FORMAT_TEXT ||
    pg_strcasecmp_eq d.value FDW_OPTION_FORMAT_CSV
  else !(specialName d.defname) && IsCopyOption d.defname

/-- Whether an option name falls through to the generic pass-through set. -/
def genericName (x : String) : Bool :=
  !(specialName x) && !(IsCopyOption x)

/-- The value of the last occurrence of `name` in a list of options. -/
def lastVal : List DefElem → String → Option String
  | [], _ => none
  | d :: rest, name =>
    match lastVal rest name with
    | some v => some v
    | none => if d.defname == name then some d.value else none

/-- Eliminator used to state the merge laws: apply `g` to the last occurrence
of a field, or keep the default. -/
def withLast {α : Type} (g : String → α) (dflt : α) : Option String → α
  | some v => g v
  | none => dflt

/-- Reference recursion for the generic pass-through accumulation: the pair
(seen names, kept options) after scanning a list. -/
def otherPair : List DefElem → List String × List DefElem → List String × List DefElem
  | [], p => p
  | d :: rest, (seen, acc) =>
    if genericName d.defname then
      (if seen.contains d.defname then otherPair rest (seen, acc)
       else otherPair rest (seen ++ [d.defname], acc ++ [d]))
    else otherPair rest (seen, acc)

/-- Lexicographic (code-point) strict order on char lists. -/
def ltLC : List Char → List Char → Bool
  | [], [] => false
  | [], _ :: _ => true
  | _ :: _, [] => false
  | a :: as, b :: bs => if a < b then true else if b < a then false else ltLC as bs

/-- Insertion into an ascending list of strings. -/
def insertLe (a : String) : List String → List String
  | [] => [a]
  | b :: rest =>
    if ltLC b.data a.data = false then a :: b :: rest else b :: insertLe a rest

/-- Insertion sort, ascending; used only to express the spec's word "sorted". -/
def sortLe : List String → List String
  | [] => []
  | a :: rest => insertLe a (sortLe rest)

/-- Follows the spec's words (not the source): the "sorted, comma-joined list
of legal option names for the violating catalog level". -/
def specSortedHint (catalog : Oid) : String :=
  String.intercalate ", "
    (sortLe ((valid_copy_options.filter (fun e => e.2 == catalog)).map (fun e => e.1)))

/-! ### Loop characterization lemmas -/

theorem resolveStep_fields (st : RState) (d : DefElem) (st1 : RState)
    (h : resolveStep st d = .ok st1) :
    st1.pxf_host = (if d.defname == FDW_OPTION_PXF_HOST then some d.value else st.pxf_host) ∧
    st1.pxf_protocol = (if d.defname == FDW_OPTION_PXF_PROTOCOL then some d.value else st.pxf_protocol) ∧
    st1.protocol = (if d.defname == FDW_OPTION_PROTOCOL then some d.value else st.protocol) ∧
    st1.resource = (if d.defname == FDW_OPTION_RESOURCE then some d.value else st.resource) ∧
    st1.format = (if d.defname == FDW_OPTION_FORMAT then some d.value else st.format) ∧
    st1.wire_format = (if d.defname == FDW_OPTION_WIRE_FORMAT then some d.value else st.wire_format) ∧
    st1.reject_limit = (if d.defname == FDW_OPTION_REJECT_LIMIT then atoiInt d.value else st.reject_limit) ∧
    st1.is_reject_limit_rows = (if d.defname == FDW_OPTION_REJECT_LIMIT_TYPE then
        pg_strcasecmp_eq FDW_OPTION_REJECT_LIMIT_ROWS d.value else st.is_reject_limit_rows) ∧
    st1.pxf_port = (if d.defname == FDW_OPTION_PXF_PORT then atoiInt d.value else st.pxf_port) ∧
    (d.defname = FDW_OPTION_PXF_PORT → 0 < atoiInt d.value ∧ atoiInt d.value < 65535) ∧
    st1.copy_options = st.copy_options ++ (if keptAsCopy d then [d] else []) ∧
    ((st1.other_option_names, st1.other_options) =
      if genericName d.defname then
        (if st.other_option_names.contains d.defname then
          (st.other_option_names, st.other_options)
         else (st.other_option_names ++ [d.defname], st.other_options ++ [d]))
      else (st.other_option_names, st.other_options)) := by
  unfold resolveStep at h
  by_cases e1 : d.defname = FDW_OPTION_PXF_HOST
  · simp only [e1, FDW_OPTION_PXF_HOST, FDW_OPTION_PXF_PORT, FDW_OPTION_PXF_PROTOCOL,
      beq_iff_eq, String.reduceEq, reduceIte, Except.ok.injEq] at h
    subst h
    simp [e1, keptAsCopy, genericName, specialName, IsCopyOption, valid_copy_options,
      FDW_OPTION_PXF_HOST, FDW_OPTION_PXF_PORT, FDW_OPTION_PXF_PROTOCOL,
      FDW_OPTION_PROTOCOL, FDW_OPTION_RESOURCE, FDW_OPTION_REJECT_LIMIT,
      FDW_OPTION_REJECT_LIMIT_TYPE, FDW_OPTION_FORMAT, FDW_OPTION_WIRE_FORMAT]
  by_cases e2 : d.defname = FDW_OPTION_PXF_PORT
  · simp only [e2, FDW_OPTION_PXF_HOST, FDW_OPTION_PXF_PORT,
      beq_iff_eq, String.reduceEq, reduceIte] at h
    by_cases hp : atoiInt d.value ≤ 0 ∨ 65535 ≤ atoiInt d.value
    · simp [hp] at h
    · have hb1 : 0 < atoiInt d.value := by omega
      have hb2 : atoiInt d.value < 65535 := by omega
      simp only [hp, reduceIte, if_false, Except.ok.injEq] at h
      subst h
      simp [e2, hb1, hb2, keptAsCopy, genericName, specialName, IsCopyOption,
        valid_copy_options, FDW_OPTION_PXF_HOST, FDW_OPTION_PXF_PORT,
        FDW_OPTION_PXF_PROTOCOL, FDW_OPTION_PROTOCOL, FDW_OPTION_RESOURCE,
        FDW_OPTION_REJECT_LIMIT, FDW_OPTION_REJECT_LIMIT_TYPE, FDW_OPTION_FORMAT,
        FDW_OPTION_WIRE_FORMAT]
  by_cases e3 : d.defname = FDW_OPTION_PXF_PROTOCOL
  · simp only [e3, FDW_OPTION_PXF_HOST, FDW_OPTION_PXF_PORT, FDW_OPTION_PXF_PROTOCOL,
      beq_iff_eq, String.reduceEq, reduceIte, Except.ok.injEq] at h
    subst h
    simp [e3, keptAsCopy, genericName, specialName, IsCopyOption, valid_copy_options,
      FDW_OPTION_PXF_HOST, FDW_OPTION_PXF_PORT, FDW_OPTION_PXF_PROTOCOL,
      FDW_OPTION_PROTOCOL, FDW_OPTION_RESOURCE, FDW_OPTION_REJECT_LIMIT,
      FDW_OPTION_REJECT_LIMIT_TYPE, FDW_OPTION_FORMAT, FDW_OPTION_WIRE_FORMAT]
  by_cases e4 : d.defname = FDW_OPTION_PROTOCOL
  · simp only [e4, FDW_OPTION_PXF_HOST, FDW_OPTION_PXF_PORT, FDW_OPTION_PXF_PROTOCOL,
      FDW_OPTION_PROTOCOL, beq_iff_eq, String.reduceEq, reduceIte, Except.ok.injEq] at h
    subst h
    simp [e4, keptAsCopy, genericName, specialName, IsCopyOption, valid_copy_options,
      FDW_OPTION_PXF_HOST, FDW_OPTION_PXF_PORT, FDW_OPTION_PXF_PROTOCOL,
      FDW_OPTION_PROTOCOL, FDW_OPTION_RESOURCE, FDW_OPTION_REJECT_LIMIT,
      FDW_OPTION_REJECT_LIMIT_TYPE, FDW_OPTION_FORMAT, FDW_OPTION_WIRE_FORMAT]
  by_cases e5 : d.defname = FDW_OPTION_RESOURCE
  · simp only [e5, FDW_OPTION_PXF_HOST, FDW_OPTION_PXF_PORT, FDW_OPTION_PXF_PROTOCOL,
      FDW_OPTION_PROTOCOL, FDW_OPTION_RESOURCE, beq_iff_eq, String.reduceEq,
      reduceIte, Except.ok.injEq] at h
    subst h
    simp [e5, keptAsCopy, genericName, specialName, IsCopyOption, valid_copy_options,
      FDW_OPTION_PXF_HOST, FDW_OPTION_PXF_PORT, FDW_OPTION_PXF_PROTOCOL,
      FDW_OPTION_PROTOCOL, FDW_OPTION_RESOURCE, FDW_OPTION_REJECT_LIMIT,
      FDW_OPTION_REJECT_LIMIT_TYPE, FDW_OPTION_FORMAT, FDW_OPTION_WIRE_FORMAT]
  by_cases e6 : d.defname = FDW_OPTION_REJECT_LIMIT
  · simp only [e6, FDW_OPTION_PXF_HOST, FDW_OPTION_PXF_PORT, FDW_OPTION_PXF_PROTOCOL,
      FDW_OPTION_PROTOCOL, FDW_OPTION_RESOURCE, FDW_OPTION_REJECT_LIMIT,
      beq_iff_eq, String.reduceEq, reduceIte, Except.ok.injEq] at h
    subst h
    simp [e6, keptAsCopy, genericName, specialName, IsCopyOption, valid_copy_options,
      FDW_OPTION_PXF_HOST, FDW_OPTION_PXF_PORT, FDW_OPTION_PXF_PROTOCOL,
      FDW_OPTION_PROTOCOL, FDW_OPTION_RESOURCE, FDW_OPTION_REJECT_LIMIT,
      FDW_OPTION_REJECT_LIMIT_TYPE, FDW_OPTION_FORMAT, FDW_OPTION_WIRE_FORMAT]
  by_cases e7 : d.defname = FDW_OPTION_REJECT_LIMIT_TYPE
  · simp only [e7, FDW_OPTION_PXF_HOST, FDW_OPTION_PXF_PORT, FDW_OPTION_PXF_PROTOCOL,
      FDW_OPTION_PROTOCOL, FDW_OPTION_RESOURCE, FDW_OPTION_REJECT_LIMIT,
      FDW_OPTION_REJECT_LIMIT_TYPE, beq_iff_eq, String.reduceEq, reduceIte,
      Except.ok.injEq] at h
    subst h
    simp [e7, keptAsCopy, genericName, specialName, IsCopyOption, valid_copy_options,
      FDW_OPTION_PXF_HOST, FDW_OPTION_PXF_PORT, FDW_OPTION_PXF_PROTOCOL,
      FDW_OPTION_PROTOCOL, FDW_OPTION_RESOURCE, FDW_OPTION_REJECT_LIMIT,
      FDW_OPTION_REJECT_LIMIT_TYPE, FDW_OPTION_FORMAT, FDW_OPTION_WIRE_FORMAT]
  by_cases e8 : d.defname = FDW_OPTION_FORMAT
  · simp only [e8, FDW_OPTION_PXF_HOST, FDW_OPTION_PXF_PORT, FDW_OPTION_PXF_PROTOCOL,
      FDW_OPTION_PROTOCOL, FDW_OPTION_RESOURCE, FDW_OPTION_REJECT_LIMIT,
      FDW_OPTION_REJECT_LIMIT_TYPE, FDW_OPTION_FORMAT, beq_iff_eq, String.reduceEq,
      reduceIte, Except.ok.injEq] at h
    subst h
    simp [e8, keptAsCopy, genericName, specialName, IsCopyOption, valid_copy_options,
      FDW_OPTION_PXF_HOST, FDW_OPTION_PXF_PORT, FDW_OPTION_PXF_PROTOCOL,
      FDW_OPTION_PROTOCOL, FDW_OPTION_RESOURCE, FDW_OPTION_REJECT_LIMIT,
      FDW_OPTION_REJECT_LIMIT_TYPE, FDW_OPTION_FORMAT, FDW_OPTION_WIRE_FORMAT]
    split_ifs <;> simp
  by_cases e9 : d.defname = FDW_OPTION_WIRE_FORMAT
  · simp only [e9, FDW_OPTION_PXF_HOST, FDW_OPTION_PXF_PORT, FDW_OPTION_PXF_PROTOCOL,
      FDW_OPTION_PROTOCOL, FDW_OPTION_RESOURCE, FDW_OPTION_REJECT_LIMIT,
      FDW_OPTION_REJECT_LIMIT_TYPE, FDW_OPTION_FORMAT, FDW_OPTION_WIRE_FORMAT,
      beq_iff_eq, String.reduceEq, reduceIte, Except.ok.injEq] at h
    subst h
    simp [e9, keptAsCopy, genericName, specialName, IsCopyOption, valid_copy_options,
      FDW_OPTION_PXF_HOST, FDW_OPTION_PXF_PORT, FDW_OPTION_PXF_PROTOCOL,
      FDW_OPTION_PROTOCOL, FDW_OPTION_RESOURCE, FDW_OPTION_REJECT_LIMIT,
      FDW_OPTION_REJECT_LIMIT_TYPE, FDW_OPTION_FORMAT, FDW_OPTION_WIRE_FORMAT]
  by_cases e10 : IsCopyOption d.defname = true
  · simp only [beq_iff_eq, e1, e2, e3, e4, e5, e6, e7, e8, e9, e10, reduceIte,
      if_false, if_true, Except.ok.injEq] at h
    subst h
    simp [keptAsCopy, genericName, specialName, beq_iff_eq,
      e1, e2, e3, e4, e5, e6, e7, e8, e9, e10]
  by_cases e11 : st.other_option_names.contains d.defname = true
  · have e11m : d.defname ∈ st.other_option_names := by simpa using e11
    simp only [beq_iff_eq, e1, e2, e3, e4, e5, e6, e7, e8, e9, e10, e11, reduceIte,
      if_false, if_true, Bool.false_eq_true, Except.ok.injEq] at h
    subst h
    simp [keptAsCopy, genericName, specialName, beq_iff_eq,
      e1, e2, e3, e4, e5, e6, e7, e8, e9, e10, e11m]
  · have e11m : d.defname ∉ st.other_option_names := by simpa using e11
    simp only [beq_iff_eq, e1, e2, e3, e4, e5, e6, e7, e8, e9, e10, e11, reduceIte,
      if_false, if_true, Bool.false_eq_true, Except.ok.injEq] at h
    subst h
    simp [keptAsCopy, genericName, specialName, beq_iff_eq,
      e1, e2, e3, e4, e5, e6, e7, e8, e9, e10, e11m]

theorem resolveLoop_track {α : Type} (f : RState → α) (name : String) (g : String → α)
    (hstep : ∀ st d st1, resolveStep st d = .ok st1 →
      f st1 = if d.defname == name then g d.value else f st) :
    ∀ (l : List DefElem) (st st1 : RState), resolveLoop st l = .ok st1 →
      f st1 = withLast g (f st) (lastVal l name) := by
  intro l
  induction l with
  | nil =>
    intro st st1 h
    simp only [resolveLoop, Except.ok.injEq] at h
    subst h
    rfl
  | cons d rest ih =>
    intro st st1 h
    simp only [resolveLoop] at h
    cases hs : resolveStep st d with
    | error e => rw [hs] at h; exact absurd h (by simp)
    | ok stm =>
      rw [hs] at h
      have h2 := ih stm st1 h
      rw [h2, hstep st d stm hs]
      cases hl : lastVal rest name with
      | some v => simp [lastVal, withLast, hl]
      | none =>
        simp only [lastVal, hl]
        by_cases hd : (d.defname == name) = true
        · simp [hd, withLast]
        · simp [hd, withLast]

theorem resolveLoop_copy :
    ∀ (l : List DefElem) (st st1 : RState), resolveLoop st l = .ok st1 →
      st1.copy_options = st.copy_options ++ l.filter keptAsCopy := by
  intro l
  induction l with
  | nil =>
    intro st st1 h
    simp only [resolveLoop, Except.ok.injEq] at h
    subst h
    simp
  | cons d rest ih =>
    intro st st1 h
    simp only [resolveLoop] at h
    cases hs : resolveStep st d with
    | error e => rw [hs] at h; exact absurd h (by simp)
    | ok stm =>
      rw [hs] at h
      have h2 := ih stm st1 h
      have h3 := (resolveStep_fields st d stm hs).2.2.2.2.2.2.2.2.2.2.1
      rw [h2, h3, List.filter_cons]
      by_cases hk : keptAsCopy d = true
      · simp [hk]
      · simp [hk]

theorem resolveLoop_other :
    ∀ (l : List DefElem) (st st1 : RState), resolveLoop st l = .ok st1 →
      (st1.other_option_names, st1.other_options) =
        otherPair l (st.other_option_names, st.other_options) := by
  intro l
  induction l with
  | nil =>
    intro st st1 h
    simp only [resolveLoop, Except.ok.injEq] at h
    subst h
    rfl
  | cons d rest ih =>
    intro st st1 h
    simp only [resolveLoop] at h
    cases hs : resolveStep st d with
    | error e => rw [hs] at h; exact absurd h (by simp)
    | ok stm =>
      rw [hs] at h
      have h2 := ih stm st1 h
      have h3 := (resolveStep_fields st d stm hs).2.2.2.2.2.2.2.2.2.2.2
      simp only [otherPair]
      by_cases hg : genericName d.defname = true
      · simp only [hg, if_true] at h3 ⊢
        by_cases hc : st.other_option_names.contains d.defname = true
        · simp only [hc, if_true] at h3 ⊢
          rw [h2, h3]
        · simp only [hc, if_false, Bool.false_eq_true] at h3 ⊢
          rw [h2, h3]
      · simp only [hg, if_false, Bool.false_eq_true] at h3 ⊢
        rw [h2, h3]

theorem resolveLoop_port :
    ∀ (l : List DefElem) (st st1 : RState), resolveLoop st l = .ok st1 →
      st1.pxf_port = withLast atoiInt st.pxf_port (lastVal l FDW_OPTION_PXF_PORT) ∧
      (∀ v, lastVal l FDW_OPTION_PXF_PORT = some v →
        0 < atoiInt v ∧ atoiInt v < 65535) := by
  intro l
  induction l with
  | nil =>
    intro st st1 h
    simp only [resolveLoop, Except.ok.injEq] at h
    subst h
    exact ⟨rfl, by intro v hv; simp [lastVal] at hv⟩
  | cons d rest ih =>
    intro st st1 h
    simp only [resolveLoop] at h
    cases hs : resolveStep st d with
    | error e => rw [hs] at h; exact absurd h (by simp)
    | ok stm =>
      rw [hs] at h
      have h2 := ih stm st1 h
      have hf := resolveStep_fields st d stm hs
      have hport := hf.2.2.2.2.2.2.2.2.1
      have hbnd := hf.2.2.2.2.2.2.2.2.2.1
      constructor
      · rw [h2.1, hport]
        cases hl : lastVal rest FDW_OPTION_PXF_PORT with
        | some v => simp [lastVal, withLast, hl]
        | none =>
          simp only [lastVal, hl]
          by_cases hd : (d.defname == FDW_OPTION_PXF_PORT) = true
          · simp [hd, withLast]
          · simp [hd, withLast]
      · intro v hv
        simp only [lastVal] at hv
        cases hl : lastVal rest FDW_OPTION_PXF_PORT with
        | some w =>
          rw [hl] at hv
          simp only [Option.some.injEq] at hv
          subst hv
          exact h2.2 w hl
        | none =>
          rw [hl] at hv
          by_cases hd : (d.defname == FDW_OPTION_PXF_PORT) = true
          · simp only [hd, if_true, Option.some.injEq] at hv
            subst hv
            exact hbnd (by simpa using hd)
          · simp [hd] at hv

theorem otherPair_filter_mem (x : String) :
    ∀ (l : List DefElem) (seen : List String) (acc : List DefElem),
      x ∈ seen →
      ((otherPair l (seen, acc)).2).filter (fun d => d.defname == x) =
        acc.filter (fun d => d.defname == x) := by
  intro l
  induction l with
  | nil => intro seen acc hx; rfl
  | cons d rest ih =>
    intro seen acc hx
    simp only [otherPair]
    by_cases hg : genericName d.defname = true
    · simp only [hg, if_true]
      by_cases hc : seen.contains d.defname = true
      · simp only [hc, if_true]
        exact ih seen acc hx
      · simp only [hc, Bool.false_eq_true, if_false]
        have hne : (d.defname == x) = false := by
          have hdm : d.defname ∉ seen := by simpa using hc
          have : d.defname ≠ x := fun he => hdm (he ▸ hx)
          simpa using this
        rw [ih (seen ++ [d.defname]) (acc ++ [d]) (by simp [hx])]
        simp [List.filter_append, hne]
    · simp only [hg, Bool.false_eq_true, if_false]
      exact ih seen acc hx

theorem otherPair_filter (x : String) (hx : genericName x = true) :
    ∀ (l : List DefElem) (seen : List String) (acc : List DefElem),
      x ∉ seen →
      ((otherPair l (seen, acc)).2).filter (fun d => d.defname == x) =
        acc.filter (fun d => d.defname == x) ++
          (match l.find? (fun d => d.defname == x) with
           | some d => [d]
           | none => []) := by
  intro l
  induction l with
  | nil =>
    intro seen acc hs
    simp [otherPair, List.find?]
  | cons d rest ih =>
    intro seen acc hs
    simp only [otherPair]
    by_cases hdx : (d.defname == x) = true
    · have hdx' : d.defname = x := by simpa using hdx
      have hg : genericName d.defname = true := by rw [hdx']; exact hx
      simp only [hg, if_true]
      have hc : seen.contains d.defname = false := by
        rw [hdx']; simpa using hs
      simp only [hc, Bool.false_eq_true, if_false]
      rw [otherPair_filter_mem x rest (seen ++ [d.defname]) (acc ++ [d])
        (by simp [hdx'])]
      simp only [List.find?, hdx]
      simp [List.filter_append, hdx]
    · have hdxf : (d.defname == x) = false := by simpa using hdx
      simp only [List.find?, hdxf]
      by_cases hg : genericName d.defname = true
      · simp only [hg, if_true]
        by_cases hc : seen.contains d.defname = true
        · simp only [hc, if_true]
          exact ih seen acc hs
        · simp only [hc, Bool.false_eq_true, if_false]
          rw [ih (seen ++ [d.defname]) (acc ++ [d])
            (by
              intro hmem
              rcases List.mem_append.mp hmem with hm | hm
              · exact hs hm
              · have : x = d.defname := by simpa using hm
                exact absurd (by simpa using this.symm) hdx)]
          simp [List.filter_append, hdx]
      · simp only [hg, Bool.false_eq_true, if_false]
        exact ih seen acc hs

theorem find?_append_first :
    ∀ (l1 l2 : List DefElem) (p : DefElem → Bool) (d : DefElem),
      l1.find? p = some d → (l1 ++ l2).find? p = some d := by
  intro l1
  induction l1 with
  | nil => intro l2 p d h; simp [List.find?] at h
  | cons a rest ih =>
    intro l2 p d h
    by_cases hp : p a = true
    · rw [List.find?_cons_of_pos _ hp] at h
      simp only [List.cons_append]
      rw [List.find?_cons_of_pos _ hp]
      exact h
    · rw [List.find?_cons_of_neg _ (by simpa using hp)] at h
      simp only [List.cons_append]
      rw [List.find?_cons_of_neg _ (by simpa using hp)]
      exact ih l2 p d h

theorem PxfGetOptions_ok (t u s w : List DefElem) (sn : String) (el : Char)
    (o : PxfOptions) (h : PxfGetOptions t u s w sn el = .ok o) :
    ∃ st, resolveLoop initRState (t ++ u ++ s ++ w) = .ok st ∧
      o = mkFinal st sn el := by
  simp only [PxfGetOptions] at h
  cases hr : resolveLoop initRState (t ++ u ++ s ++ w) with
  | error e =>
    rw [hr] at h
    exact absurd h (by simp)
  | ok st =>
    rw [hr] at h
    simp only [Except.ok.injEq] at h
    exact ⟨st, rfl, h.symm⟩

theorem validatorStep_protRes (catalog : Oid) (st : VState) (d : DefElem)
    (st1 : VState) (h : validatorStep catalog st d = .ok st1) :
    st1.protocol = (if d.defname == FDW_OPTION_PROTOCOL then some d.value else st.protocol) ∧
    st1.resource = (if d.defname == FDW_OPTION_RESOURCE then some d.value else st.resource) := by
  unfold validatorStep at h
  cases hv : ValidateOption d.defname catalog with
  | some e => rw [hv] at h; exact absurd h (by simp)
  | none =>
    rw [hv] at h
    repeat' split at h
    all_goals
      first
        | (simp only [Except.ok.injEq] at h
           subst h
           simp_all [FDW_OPTION_PROTOCOL, FDW_OPTION_RESOURCE, beq_iff_eq])
        | exact absurd h (by simp)

theorem validatorLoop_protocol_empty (catalog : Oid) :
    ∀ (l : List DefElem) (st st1 : VState), validatorLoop catalog st l = .ok st1 →
      (st.protocol = none ∨ st.protocol = some "") →
      (∀ d ∈ l, d.defname = FDW_OPTION_PROTOCOL → d.value = "") →
      (st1.protocol = none ∨ st1.protocol = some "") := by
  intro l
  induction l with
  | nil =>
    intro st st1 h h0 _
    simp only [validatorLoop, Except.ok.injEq] at h
    subst h
    exact h0
  | cons d rest ih =>
    intro st st1 h h0 hl
    simp only [validatorLoop] at h
    cases hs : validatorStep catalog st d with
    | error e => rw [hs] at h; exact absurd h (by simp)
    | ok stm =>
      rw [hs] at h
      refine ih stm st1 h ?_ (fun d2 hd2 => hl d2 (List.mem_cons_of_mem d hd2))
      have hp := (validatorStep_protRes catalog st d stm hs).1
      by_cases hd : (d.defname == FDW_OPTION_PROTOCOL) = true
      · have hv : d.value = "" :=
          hl d (List.mem_cons_self d rest) (by simpa using hd)
        rw [hp, if_pos hd, hv]
        right
        rfl
      · rw [hp, if_neg hd]
        exact h0

theorem validatorLoop_resource_empty (catalog : Oid) :
    ∀ (l : List DefElem) (st st1 : VState), validatorLoop catalog st l = .ok st1 →
      (st.resource = none ∨ st.resource = some "") →
      (∀ d ∈ l, d.defname = FDW_OPTION_RESOURCE → d.value = "") →
      (st1.resource = none ∨ st1.resource = some "") := by
  intro l
  induction l with
  | nil =>
    intro st st1 h h0 _
    simp only [validatorLoop, Except.ok.injEq] at h
    subst h
    exact h0
  | cons d rest ih =>
    intro st st1 h h0 hl
    simp only [validatorLoop] at h
    cases hs : validatorStep catalog st d with
    | error e => rw [hs] at h; exact absurd h (by simp)
    | ok stm =>
      rw [hs] at h
      refine ih stm st1 h ?_ (fun d2 hd2 => hl d2 (List.mem_cons_of_mem d hd2))
      have hp := (validatorStep_protRes catalog st d stm hs).2
      by_cases hd : (d.defname == FDW_OPTION_RESOURCE) = true
      · have hv : d.value = "" :=
          hl d (List.mem_cons_self d rest) (by simpa using hd)
        rw [hp, if_pos hd, hv]
        right
        rfl
      · rw [hp, if_neg hd]
        exact h0

/-! ### Claim theorems -/

/-- C1: the claim (and the spec's format-derivation law) says the defaulted
`wire_format` is the binary-writable token for `format=parquet`. The code says
otherwise: `GetWireFormatName` uses `pg_strcasecmp(format, "csv")` and
`pg_strcasecmp(format, "rc")` without `== 0`, so a nonzero (truthy) comparison
makes the text branch fire for every non-NULL format. This theorem evaluates
the embedded code at the failing input: `format="parquet"` yields the
text-wire token, both in `GetWireFormatName` and in the merged configuration,
while the CSV half of the claim does hold. The code contradicts its own
comment (which only motivates the substring search for the text family), so
the claim is recorded as a code bug. -/
theorem C1_wire_format_default_eval :
    GetWireFormatName (some "parquet") = TextFormatName ∧
    TextFormatName ≠ GpdbWritableFormatName ∧
    (PxfGetOptions [⟨"format", "parquet"⟩] [] [] [] "s" 'a').toOption.map
      PxfOptions.wire_format = some (some TextFormatName) ∧
    GetWireFormatName (some "CSV") = TextFormatName ∧
    GetWireFormatName (some "csv") = TextFormatName ∧
    (PxfGetOptions [⟨"format", "CsV"⟩] [] [] [] "s" 'a').toOption.map
      PxfOptions.wire_format = some (some TextFormatName) := by
  exact ⟨by decide, by decide, by decide, by decide, by decide, by decide⟩

/-- C2 counterexample: a `header` option at ForeignTable level and another at
Wrapper level both survive into the merged `copy_options`, so the row-format
option list does not keep at most one entry per name. -/
theorem C2_copy_options_duplicate_counterexample :
    (PxfGetOptions [⟨"header", "1"⟩] [] [] [⟨"header", "0"⟩] "s" 'a').toOption.map
      PxfOptions.copy_options = some [⟨"header", "1"⟩, ⟨"header", "0"⟩] ∧
    ¬((([⟨"header", "1"⟩, ⟨"header", "0"⟩] : List DefElem).filter
        (fun d => d.defname == "header")).length ≤ 1) := by
  exact ⟨by decide, by decide⟩

/-- C2 amended: the resolver does not deduplicate row-format (copy) options at
all; the merged `copy_options` list is exactly the concatenation
(ForeignTable, UserMapping, Server, Wrapper) filtered to the options the loop
forwards, keeping every occurrence of a repeated name in that order. -/
theorem C2_copy_options_keep_all_occurrences (t u s w : List DefElem)
    (sn : String) (el : Char) (o : PxfOptions)
    (h : PxfGetOptions t u s w sn el = .ok o) :
    o.copy_options = (t ++ u ++ s ++ w).filter keptAsCopy := by
  obtain ⟨st, hloop, ho⟩ := PxfGetOptions_ok t u s w sn el o h
  have hc := resolveLoop_copy (t ++ u ++ s ++ w) initRState st hloop
  rw [ho]
  show st.copy_options = _
  rw [hc]
  simp [initRState]

/-- Concrete merged configuration used by the C2 witness. -/
def c2res : PxfOptions :=
  ((PxfGetOptions [⟨"header", "1"⟩, ⟨"x", "y"⟩] [] [] [⟨"header", "0"⟩]
      "s" 'a').toOption).getD defaultPxfOptions

theorem C2_copy_options_keep_all_occurrences_witness :
    c2res.copy_options =
      (([⟨"header", "1"⟩, ⟨"x", "y"⟩] : List DefElem) ++ [] ++ [] ++
        ([⟨"header", "0"⟩] : List DefElem)).filter keptAsCopy :=
  C2_copy_options_keep_all_occurrences [⟨"header", "1"⟩, ⟨"x", "y"⟩] [] []
    [⟨"header", "0"⟩] "s" 'a' c2res (by decide)

/-- C3: for a generic pass-through option name `x` (neither a recognized named
field nor a row-format option) that occurs at ForeignTable level and at
Wrapper level with different values, the merged generic pass-through set holds
exactly one entry for `x`, carrying the ForeignTable-level (first-occurrence)
value. -/
theorem C3_generic_first_occurrence_wins (t u s w : List DefElem)
    (sn : String) (el : Char) (o : PxfOptions) (x v1 v2 : String)
    (h : PxfGetOptions t u s w sn el = .ok o)
    (hx : genericName x = true)
    (ht : t.find? (fun d => d.defname == x) = some (DefElem.mk x v1))
    (_hw : w.find? (fun d => d.defname == x) = some (DefElem.mk x v2))
    (_hne : v1 ≠ v2) :
    o.options.filter (fun d => d.defname == x) = [DefElem.mk x v1] := by
  obtain ⟨st, hloop, ho⟩ := PxfGetOptions_ok t u s w sn el o h
  have hpair := resolveLoop_other (t ++ u ++ s ++ w) initRState st hloop
  have hopts : st.other_options = (otherPair (t ++ u ++ s ++ w) ([], [])).2 := by
    have h2 := congrArg Prod.snd hpair
    simpa [initRState] using h2
  rw [ho]
  show st.other_options.filter _ = _
  rw [hopts, otherPair_filter x hx (t ++ u ++ s ++ w) [] [] (by simp)]
  have hfind : (t ++ u ++ s ++ w).find? (fun d => d.defname == x) =
      some (DefElem.mk x v1) :=
    find?_append_first _ w _ _ (find?_append_first _ s _ _
      (find?_append_first t u _ _ ht))
  rw [hfind]
  simp

/-- Concrete merged configuration used by the C3 witness. -/
def c3res : PxfOptions :=
  ((PxfGetOptions [⟨"foo", "a"⟩] [] [] [⟨"foo", "b"⟩] "s" 'a').toOption).getD
    defaultPxfOptions

theorem C3_generic_first_occurrence_wins_witness :
    c3res.options.filter (fun d => d.defname == "foo") = [DefElem.mk "foo" "a"] :=
  C3_generic_first_occurrence_wins [⟨"foo", "a"⟩] [] [] [⟨"foo", "b"⟩] "s" 'a'
    c3res "foo" "a" "b" (by decide) (by decide) (by decide) (by decide)
    (by decide)

/-- C4: every connector-catalog option passes the Level Validator at its
single legal level; at any other level it fails with `WrongCatalogLevel`
carrying that one legal level; names without a rule are a no-op at every
level. -/
theorem C4_level_validator :
    (∀ p ∈ valid_options, ValidateOption p.1 p.2 = none) ∧
    (∀ p ∈ valid_options, ∀ c : Oid, c ≠ p.2 →
      ValidateOption p.1 c = some (.WrongCatalogLevel p.1 p.2)) ∧
    (∀ (x : String) (c : Oid), (∀ p ∈ valid_options, p.1 ≠ x) →
      ValidateOption x c = none) := by
  refine ⟨by decide, by decide, ?_⟩
  intro x c hx
  have h1 : FDW_OPTION_PROTOCOL ≠ x :=
    hx ((FDW_OPTION_PROTOCOL, Oid.ForeignDataWrapperRelationId) : String × Oid)
      (by decide)
  have h2 : FDW_OPTION_RESOURCE ≠ x :=
    hx (FDW_OPTION_RESOURCE, Oid.ForeignTableRelationId) (by decide)
  have h3 : FDW_OPTION_FORMAT ≠ x :=
    hx (FDW_OPTION_FORMAT, Oid.ForeignTableRelationId) (by decide)
  have h4 : FDW_OPTION_WIRE_FORMAT ≠ x :=
    hx (FDW_OPTION_WIRE_FORMAT, Oid.ForeignTableRelationId) (by decide)
  have h5 : FDW_OPTION_REJECT_LIMIT ≠ x :=
    hx (FDW_OPTION_REJECT_LIMIT, Oid.ForeignTableRelationId) (by decide)
  have h6 : FDW_OPTION_REJECT_LIMIT_TYPE ≠ x :=
    hx (FDW_OPTION_REJECT_LIMIT_TYPE, Oid.ForeignTableRelationId) (by decide)
  simp [ValidateOption, valid_options, List.findSome?, h1, h2, h3, h4, h5, h6]

theorem C4_level_validator_witness :
    ValidateOption "protocol" Oid.ForeignDataWrapperRelationId = none ∧
    ValidateOption "protocol" Oid.ForeignTableRelationId =
      some (.WrongCatalogLevel "protocol" Oid.ForeignDataWrapperRelationId) ∧
    ValidateOption "bogus" Oid.ForeignServerRelationId = none := by
  refine ⟨?_, ?_, ?_⟩
  · exact C4_level_validator.1 ((FDW_OPTION_PROTOCOL,
      Oid.ForeignDataWrapperRelationId) : String × Oid) (by decide)
  · exact C4_level_validator.2.1 ((FDW_OPTION_PROTOCOL,
      Oid.ForeignDataWrapperRelationId) : String × Oid) (by decide)
      Oid.ForeignTableRelationId (by decide)
  · exact C4_level_validator.2.2 "bogus" Oid.ForeignServerRelationId (by decide)

/-- C5: the reject-limit boundary behaviour of the validator, at ForeignTable
level with a valid `resource` present, for any row-format delegate that
accepts the empty forwarded set: `reject_limit=1` with type rows fails with
the invalid-string-format error, 2 succeeds; with type percent 0 fails, 100
succeeds, 101 fails. -/
theorem C5_reject_limit_boundaries (ext : CopyExternals)
    (hext : ext.processCopyOptions [] = none) :
    pxf_fdw_validator ext
      [⟨"resource", "r"⟩, ⟨"reject_limit", "1"⟩, ⟨"reject_limit_type", "rows"⟩]
      Oid.ForeignTableRelationId = some .InvalidStringFormat ∧
    pxf_fdw_validator ext
      [⟨"resource", "r"⟩, ⟨"reject_limit", "2"⟩, ⟨"reject_limit_type", "rows"⟩]
      Oid.ForeignTableRelationId = none ∧
    pxf_fdw_validator ext
      [⟨"resource", "r"⟩, ⟨"reject_limit", "0"⟩, ⟨"reject_limit_type", "percent"⟩]
      Oid.ForeignTableRelationId = some .InvalidStringFormat ∧
    pxf_fdw_validator ext
      [⟨"resource", "r"⟩, ⟨"reject_limit", "100"⟩, ⟨"reject_limit_type", "percent"⟩]
      Oid.ForeignTableRelationId = none ∧
    pxf_fdw_validator ext
      [⟨"resource", "r"⟩, ⟨"reject_limit", "101"⟩, ⟨"reject_limit_type", "percent"⟩]
      Oid.ForeignTableRelationId = some .InvalidStringFormat := by
  refine ⟨rfl, ?_, rfl, ?_, rfl⟩
  · exact (show pxf_fdw_validator ext
      [⟨"resource", "r"⟩, ⟨"reject_limit", "2"⟩, ⟨"reject_limit_type", "rows"⟩]
      Oid.ForeignTableRelationId = ext.processCopyOptions [] from rfl).trans hext
  · exact (show pxf_fdw_validator ext
      [⟨"resource", "r"⟩, ⟨"reject_limit", "100"⟩, ⟨"reject_limit_type", "percent"⟩]
      Oid.ForeignTableRelationId = ext.processCopyOptions [] from rfl).trans hext

theorem C5_reject_limit_boundaries_witness :
    pxf_fdw_validator extTrivial
      [⟨"resource", "r"⟩, ⟨"reject_limit", "2"⟩, ⟨"reject_limit_type", "rows"⟩]
      Oid.ForeignTableRelationId = none :=
  (C5_reject_limit_boundaries extTrivial rfl).2.1

/-- C6 counterexample: the claim quantifies over every option list without a
protocol option, but the list `[resource=x]` at Wrapper level (which contains
no protocol option) fails with `WrongCatalogLevel`, not
`DynamicParameterValueNeeded` — the per-option level check fires first. -/
theorem C6_required_field_counterexample :
    pxf_fdw_validator extTrivial [⟨"resource", "x"⟩]
      Oid.ForeignDataWrapperRelationId =
      some (.WrongCatalogLevel "resource" Oid.ForeignTableRelationId) ∧
    some (PxfError.WrongCatalogLevel "resource" Oid.ForeignTableRelationId) ≠
      some (PxfError.DynamicParameterValueNeeded "protocol") := by
  exact ⟨by decide, by decide⟩

/-- C6 amended: restricted to option lists whose per-option processing
succeeds, the required-field law holds: at Wrapper level, if every protocol
option (if any) is empty-valued, validation fails with
`DynamicParameterValueNeeded` for protocol; symmetrically for resource at
ForeignTable level; at Server and UserMapping levels the absence of both
options is no error — the empty list flows straight through to the row-format
delegate. -/
theorem C6_required_fields :
    (∀ (ext : CopyExternals) (l : List DefElem) (st : VState),
      validatorLoop Oid.ForeignDataWrapperRelationId vInit l = .ok st →
      (∀ d ∈ l, d.defname = FDW_OPTION_PROTOCOL → d.value = "") →
      pxf_fdw_validator ext l Oid.ForeignDataWrapperRelationId =
        some (.DynamicParameterValueNeeded FDW_OPTION_PROTOCOL)) ∧
    (∀ (ext : CopyExternals) (l : List DefElem) (st : VState),
      validatorLoop Oid.ForeignTableRelationId vInit l = .ok st →
      (∀ d ∈ l, d.defname = FDW_OPTION_RESOURCE → d.value = "") →
      pxf_fdw_validator ext l Oid.ForeignTableRelationId =
        some (.DynamicParameterValueNeeded FDW_OPTION_RESOURCE)) ∧
    (∀ ext : CopyExternals,
      pxf_fdw_validator ext [] Oid.ForeignServerRelationId =
        ext.processCopyOptions [] ∧
      pxf_fdw_validator ext [] Oid.UserMappingRelationId =
        ext.processCopyOptions []) := by
  refine ⟨?_, ?_, fun ext => ⟨rfl, rfl⟩⟩
  · intro ext l st hloop hempty
    have hp := validatorLoop_protocol_empty Oid.ForeignDataWrapperRelationId l
      vInit st hloop (Or.inl rfl) hempty
    simp only [pxf_fdw_validator, hloop]
    rcases hp with hp | hp <;> simp [hp]
  · intro ext l st hloop hempty
    have hp := validatorLoop_resource_empty Oid.ForeignTableRelationId l
      vInit st hloop (Or.inl rfl) hempty
    simp only [pxf_fdw_validator, hloop]
    rcases hp with hp | hp <;> simp [hp]

theorem C6_required_fields_witness :
    pxf_fdw_validator extTrivial [] Oid.ForeignDataWrapperRelationId =
      some (.DynamicParameterValueNeeded FDW_OPTION_PROTOCOL) :=
  C6_required_fields.1 extTrivial [] vInit rfl (by simp)

/-- C7: a `pxf_port` option with value 0, negative, or at least 65535 aborts
resolution with the invalid-port error, while 1 and 65534 resolve; and
whenever resolution completes, the merged port lies strictly between 0 and
65535 (the built-in default also lies in that range). -/
theorem C7_port_range :
    (∀ (t u s w : List DefElem) (sn : String) (el : Char) (o : PxfOptions),
      PxfGetOptions t u s w sn el = .ok o →
      0 < o.pxf_port ∧ o.pxf_port < 65535) ∧
    PxfGetOptions [⟨"pxf_port", "0"⟩] [] [] [] "s" 'a' =
      .error (.InvalidPort "0") ∧
    PxfGetOptions [⟨"pxf_port", "-1"⟩] [] [] [] "s" 'a' =
      .error (.InvalidPort "-1") ∧
    PxfGetOptions [⟨"pxf_port", "65535"⟩] [] [] [] "s" 'a' =
      .error (.InvalidPort "65535") ∧
    (PxfGetOptions [⟨"pxf_port", "1"⟩] [] [] [] "s" 'a').toOption.map
      PxfOptions.pxf_port = some 1 ∧
    (PxfGetOptions [⟨"pxf_port", "65534"⟩] [] [] [] "s" 'a').toOption.map
      PxfOptions.pxf_port = some 65534 := by
  refine ⟨?_, by decide, by decide, by decide, by decide, by decide⟩
  intro t u s w sn el o h
  obtain ⟨st, hloop, ho⟩ := PxfGetOptions_ok t u s w sn el o h
  have hport := resolveLoop_port (t ++ u ++ s ++ w) initRState st hloop
  rw [ho]
  show 0 < (if st.pxf_port == 0 then PXF_FDW_DEFAULT_PORT else st.pxf_port) ∧
    (if st.pxf_port == 0 then PXF_FDW_DEFAULT_PORT else st.pxf_port) < 65535
  cases hl : lastVal (t ++ u ++ s ++ w) FDW_OPTION_PXF_PORT with
  | none =>
    have h0 : st.pxf_port = 0 := by
      have h1 := hport.1
      rw [hl] at h1
      exact h1
    rw [h0]
    simp [PXF_FDW_DEFAULT_PORT]
  | some v =>
    have hb := hport.2 v hl
    have heq : st.pxf_port = atoiInt v := by
      have h1 := hport.1
      rw [hl] at h1
      exact h1
    have hz : ¬(st.pxf_port == 0) = true := by
      rw [heq]
      simp only [beq_iff_eq]
      omega
    rw [if_neg hz, heq]
    exact hb

/-- Concrete merged configuration used by the C7 witness. -/
def c7res : PxfOptions :=
  ((PxfGetOptions [⟨"pxf_port", "1"⟩] [] [] [] "s" 'a').toOption).getD
    defaultPxfOptions

theorem C7_port_range_witness : 0 < c7res.pxf_port ∧ c7res.pxf_port < 65535 :=
  C7_port_range.1 [⟨"pxf_port", "1"⟩] [] [] [] "s" 'a' c7res (by decide)

/-- C8 counterexample: the hint produced for an invalid copy option at
ForeignTable level lists the legal names in the catalog array's declaration
order, which differs from the sorted order the claim demands. -/
theorem C8_hint_not_sorted_counterexample :
    ValidateCopyOptions extTrivial [⟨"bogus", "x"⟩] Oid.ForeignTableRelationId =
      some (.InvalidOptionName "bogus"
        (some "format, header, delimiter, quote, escape, null, encoding, newline, fill_missing_fields")) ∧
    specSortedHint Oid.ForeignTableRelationId =
      "delimiter, encoding, escape, fill_missing_fields, format, header, newline, null, quote" ∧
    ("format, header, delimiter, quote, escape, null, encoding, newline, fill_missing_fields" : String) ≠
      "delimiter, encoding, escape, fill_missing_fields, format, header, newline, null, quote" := by
  exact ⟨by decide, by decide, by decide⟩

/-- C8 amended: the invalid-option error message lists the legal copy option
names for the violating catalog level comma-joined in the catalog's
declaration order (not sorted); when no option is legal at that level the
message states that no valid options exist in that context (the `none` hint). -/
theorem C8_hint_declaration_order :
    (∀ (ext : CopyExternals) (d : DefElem) (c : Oid) (rest : List DefElem),
      IsValidCopyOption d.defname c = false →
      ValidateCopyOptions ext (d :: rest) c =
        some (.InvalidOptionName d.defname (copyHint c))) ∧
    copyHint Oid.ForeignTableRelationId =
      some "format, header, delimiter, quote, escape, null, encoding, newline, fill_missing_fields" ∧
    copyHint Oid.AttributeRelationId = some "force_not_null, force_null" ∧
    copyHint Oid.ForeignDataWrapperRelationId = none ∧
    copyHint Oid.ForeignServerRelationId = none ∧
    copyHint Oid.UserMappingRelationId = none := by
  refine ⟨?_, by decide, by decide, by decide, by decide, by decide⟩
  intro ext d c rest hinv
  simp [ValidateCopyOptions, copyLoop, hinv]

theorem C8_hint_declaration_order_witness :
    ValidateCopyOptions extTrivial [⟨"bogus", "x"⟩] Oid.ForeignServerRelationId =
      some (.InvalidOptionName "bogus" (copyHint Oid.ForeignServerRelationId)) :=
  C8_hint_declaration_order.1 extTrivial ⟨"bogus", "x"⟩
    Oid.ForeignServerRelationId [] (by decide)

/-- C9: every recognized named field of the merged configuration takes the
value of the LAST occurrence of its option name in the concatenation order
(ForeignTable, UserMapping, Server, Wrapper) — so a Wrapper-level value
overwrites a ForeignTable-level one — the opposite of the
first-occurrence-wins rule for generic pass-through options; unset fields
take their defaults (`wire_format` derives from the merged `format`). -/
theorem C9_named_fields_last_wins (t u s w : List DefElem) (sn : String)
    (el : Char) (o : PxfOptions)
    (h : PxfGetOptions t u s w sn el = .ok o) :
    o.protocol = lastVal (t ++ u ++ s ++ w) FDW_OPTION_PROTOCOL ∧
    o.resource = lastVal (t ++ u ++ s ++ w) FDW_OPTION_RESOURCE ∧
    o.format = lastVal (t ++ u ++ s ++ w) FDW_OPTION_FORMAT ∧
    o.wire_format = some (withLast id
      (GetWireFormatName (lastVal (t ++ u ++ s ++ w) FDW_OPTION_FORMAT))
      (lastVal (t ++ u ++ s ++ w) FDW_OPTION_WIRE_FORMAT)) ∧
    o.reject_limit = withLast atoiInt (-1)
      (lastVal (t ++ u ++ s ++ w) FDW_OPTION_REJECT_LIMIT) ∧
    o.is_reject_limit_rows =
      withLast (fun v => pg_strcasecmp_eq FDW_OPTION_REJECT_LIMIT_ROWS v) true
        (lastVal (t ++ u ++ s ++ w) FDW_OPTION_REJECT_LIMIT_TYPE) ∧
    o.pxf_host = some (withLast id PXF_FDW_DEFAULT_HOST
      (lastVal (t ++ u ++ s ++ w) FDW_OPTION_PXF_HOST)) ∧
    o.pxf_protocol = some (withLast id PXF_FDW_DEFAULT_PROTOCOL
      (lastVal (t ++ u ++ s ++ w) FDW_OPTION_PXF_PROTOCOL)) ∧
    o.pxf_port = withLast atoiInt PXF_FDW_DEFAULT_PORT
      (lastVal (t ++ u ++ s ++ w) FDW_OPTION_PXF_PORT) := by
  obtain ⟨st, hloop, ho⟩ := PxfGetOptions_ok t u s w sn el o h
  have hprot := resolveLoop_track RState.protocol FDW_OPTION_PROTOCOL
    (fun v => some v)
    (fun st d st1 hs => (resolveStep_fields st d st1 hs).2.2.1)
    (t ++ u ++ s ++ w) initRState st hloop
  have hres := resolveLoop_track RState.resource FDW_OPTION_RESOURCE
    (fun v => some v)
    (fun st d st1 hs => (resolveStep_fields st d st1 hs).2.2.2.1)
    (t ++ u ++ s ++ w) initRState st hloop
  have hfmt := resolveLoop_track RState.format FDW_OPTION_FORMAT
    (fun v => some v)
    (fun st d st1 hs => (resolveStep_fields st d st1 hs).2.2.2.2.1)
    (t ++ u ++ s ++ w) initRState st hloop
  have hwf := resolveLoop_track RState.wire_format FDW_OPTION_WIRE_FORMAT
    (fun v => some v)
    (fun st d st1 hs => (resolveStep_fields st d st1 hs).2.2.2.2.2.1)
    (t ++ u ++ s ++ w) initRState st hloop
  have hrl := resolveLoop_track RState.reject_limit FDW_OPTION_REJECT_LIMIT
    atoiInt
    (fun st d st1 hs => (resolveStep_fields st d st1 hs).2.2.2.2.2.2.1)
    (t ++ u ++ s ++ w) initRState st hloop
  have hrlt := resolveLoop_track RState.is_reject_limit_rows
    FDW_OPTION_REJECT_LIMIT_TYPE
    (fun v => pg_strcasecmp_eq FDW_OPTION_REJECT_LIMIT_ROWS v)
    (fun st d st1 hs => (resolveStep_fields st d st1 hs).2.2.2.2.2.2.2.1)
    (t ++ u ++ s ++ w) initRState st hloop
  have hhost := resolveLoop_track RState.pxf_host FDW_OPTION_PXF_HOST
    (fun v => some v)
    (fun st d st1 hs => (resolveStep_fields st d st1 hs).1)
    (t ++ u ++ s ++ w) initRState st hloop
  have hpproto := resolveLoop_track RState.pxf_protocol FDW_OPTION_PXF_PROTOCOL
    (fun v => some v)
    (fun st d st1 hs => (resolveStep_fields st d st1 hs).2.1)
    (t ++ u ++ s ++ w) initRState st hloop
  have hport := resolveLoop_port (t ++ u ++ s ++ w) initRState st hloop
  rw [ho]
  refine ⟨?_, ?_, ?_, ?_, ?_, ?_, ?_, ?_, ?_⟩
  · show st.protocol = _
    rw [hprot]
    cases lastVal (t ++ u ++ s ++ w) FDW_OPTION_PROTOCOL <;> rfl
  · show st.resource = _
    rw [hres]
    cases lastVal (t ++ u ++ s ++ w) FDW_OPTION_RESOURCE <;> rfl
  · show st.format = _
    rw [hfmt]
    cases lastVal (t ++ u ++ s ++ w) FDW_OPTION_FORMAT <;> rfl
  · show (match st.wire_format with
      | some v => some v
      | none => some (GetWireFormatName st.format)) = _
    have hfmt2 : st.format = lastVal (t ++ u ++ s ++ w) FDW_OPTION_FORMAT := by
      rw [hfmt]
      cases lastVal (t ++ u ++ s ++ w) FDW_OPTION_FORMAT <;> rfl
    rw [hwf, hfmt2]
    cases lastVal (t ++ u ++ s ++ w) FDW_OPTION_WIRE_FORMAT <;> rfl
  · show st.reject_limit = _
    rw [hrl]
    cases lastVal (t ++ u ++ s ++ w) FDW_OPTION_REJECT_LIMIT <;> rfl
  · show st.is_reject_limit_rows = _
    rw [hrlt]
    cases lastVal (t ++ u ++ s ++ w) FDW_OPTION_REJECT_LIMIT_TYPE <;> rfl
  · show (match st.pxf_host with
      | some v => some v
      | none => some PXF_FDW_DEFAULT_HOST) = _
    rw [hhost]
    cases lastVal (t ++ u ++ s ++ w) FDW_OPTION_PXF_HOST <;> rfl
  · show (match st.pxf_protocol with
      | some v => some v
      | none => some PXF_FDW_DEFAULT_PROTOCOL) = _
    rw [hpproto]
    cases lastVal (t ++ u ++ s ++ w) FDW_OPTION_PXF_PROTOCOL <;> rfl
  · show (if st.pxf_port == 0 then PXF_FDW_DEFAULT_PORT else st.pxf_port) = _
    cases hl : lastVal (t ++ u ++ s ++ w) FDW_OPTION_PXF_PORT with
    | none =>
      have h0 : st.pxf_port = 0 := by
        have h1 := hport.1
        rw [hl] at h1
        exact h1
      rw [h0]
      rfl
    | some v =>
      have hb := hport.2 v hl
      have heq : st.pxf_port = atoiInt v := by
        have h1 := hport.1
        rw [hl] at h1
        exact h1
      have hz : ¬(st.pxf_port == 0) = true := by
        rw [heq]
        simp only [beq_iff_eq]
        omega
      rw [if_neg hz, heq]
      rfl

/-- Concrete merged configuration used by the C9 witness. -/
def c9res : PxfOptions :=
  ((PxfGetOptions [⟨"protocol", "a"⟩] [] [] [⟨"protocol", "b"⟩]
      "s" 'a').toOption).getD defaultPxfOptions

theorem C9_named_fields_last_wins_witness : c9res.protocol = some "b" := by
  have h := C9_named_fields_last_wins [⟨"protocol", "a"⟩] [] []
    [⟨"protocol", "b"⟩] "s" 'a' c9res (by decide)
  exact h.1.trans (by decide)

/-- C10 counterexample: the claim says a reject_limit string is rejected only
when it has no leading integer or the parsed leading integer is below 1, but
"2147483648" has leading integer 2147483648 ≥ 1 and the validator still
rejects it: the C stores `(int) strtol(...)`, and the 32-bit narrowing wraps
2147483648 to -2147483648, which fails the `reject_limit < 1` check. -/
theorem C10_reject_limit_wrap_counterexample :
    strtol10 "2147483648".data = (2147483648, true) ∧
    ¬((2147483648 : Int) < 1) ∧
    wrapInt32 2147483648 = -2147483648 ∧
    validatorLoop Oid.ForeignTableRelationId vInit
      [⟨"reject_limit", "2147483648"⟩] = .error .InvalidStringFormat ∧
    pxf_fdw_validator extTrivial
      [⟨"resource", "r"⟩, ⟨"reject_limit", "2147483648"⟩]
      Oid.ForeignTableRelationId = some .InvalidStringFormat := by
  exact ⟨by decide, by decide, by decide, by decide, by decide⟩

/-- C10 amended: the validator's reject_limit parse rejects with the
invalid-string-format error exactly when `strtol` consumes no digits or the
parsed leading integer, after the C `(int)` narrowing (32-bit two's-complement
wrap), is below 1; a positive integer followed by junk, such as "5abc", is
accepted and its leading integer becomes the reject limit (so "5abc" with
type rows passes the ≥ 2 range check while "1abc" fails it). -/
theorem C10_reject_limit_parse :
    (∀ s : String,
      (((strtol10 s.data).2 = false ∨ wrapInt32 (strtol10 s.data).1 < 1) →
        validatorLoop Oid.ForeignTableRelationId vInit [⟨"reject_limit", s⟩] =
          .error .InvalidStringFormat) ∧
      ((strtol10 s.data).2 = true → 1 ≤ wrapInt32 (strtol10 s.data).1 →
        validatorLoop Oid.ForeignTableRelationId vInit [⟨"reject_limit", s⟩] =
          .ok { vInit with reject_limit := wrapInt32 (strtol10 s.data).1 })) ∧
    strtol10 "5abc".data = (5, true) ∧
    wrapInt32 5 = 5 ∧
    pxf_fdw_validator extTrivial
      [⟨"resource", "r"⟩, ⟨"reject_limit", "5abc"⟩, ⟨"reject_limit_type", "rows"⟩]
      Oid.ForeignTableRelationId = none ∧
    pxf_fdw_validator extTrivial
      [⟨"resource", "r"⟩, ⟨"reject_limit", "1abc"⟩, ⟨"reject_limit_type", "rows"⟩]
      Oid.ForeignTableRelationId = some .InvalidStringFormat := by
  refine ⟨?_, by decide, by decide, by decide, by decide⟩
  intro s
  have hstep : validatorStep Oid.ForeignTableRelationId vInit ⟨"reject_limit", s⟩ =
      (if ((strtol10 s.data).2 = false ∨ wrapInt32 (strtol10 s.data).1 < 1) then
        .error .InvalidStringFormat
      else .ok { vInit with reject_limit := wrapInt32 (strtol10 s.data).1 }) := by
    simp only [validatorStep]
    rw [show ValidateOption "reject_limit" Oid.ForeignTableRelationId = none
      from by decide]
    simp [FDW_OPTION_PROTOCOL, FDW_OPTION_RESOURCE, FDW_OPTION_WIRE_FORMAT,
      FDW_OPTION_FORMAT, FDW_OPTION_REJECT_LIMIT]
  constructor
  · intro hbad
    simp only [validatorLoop, hstep, if_pos hbad]
  · intro hconv hge
    have hneg : ¬((strtol10 s.data).2 = false ∨
        wrapInt32 (strtol10 s.data).1 < 1) := by
      rintro (hc | hc)
      · simp [hconv] at hc
      · omega
    simp only [validatorLoop, hstep, if_neg hneg]

theorem C10_reject_limit_parse_witness :
    validatorLoop Oid.ForeignTableRelationId vInit [⟨"reject_limit", "5abc"⟩] =
      .ok { vInit with reject_limit := wrapInt32 5 } :=
  (C10_reject_limit_parse.1 "5abc").2 (by decide) (by decide)
